/-
Verification of the Tatum ChainLens MCP supervisor, tool-process client,
intent classifier and fallback responder, as implemented in the main
server file (class TatumMCPServer and the surrounding route handlers).

The JavaScript source is shallowly embedded: the supervisor's mutable
fields become a state record, the event handlers registered in start()
become pure transition functions, and an inductive `Reachable` predicate
captures every state the event loop can produce.  JS numbers on the
analytics paths are modelled as exact rationals, and JS strings as Lean
strings (lists of characters for the scanning primitives).
-/
import Mathlib

/-! ## Character and string primitives

The source lowercases the inbound message (`message.toLowerCase()`) and
scans it with `includes` and the regex `/0x[a-fA-F0-9]{40}/`.  These are
modelled over `List Char`. -/

/-- ASCII lowercasing of one character, the behaviour of JS
`String.prototype.toLowerCase` on the ASCII range used by the source. -/
def jsLowerChar (c : Char) : Char :=
  if 'A' ≤ c ∧ c ≤ 'Z' then Char.ofNat (c.toNat + 32) else c

/-- Lowercasing of a whole message (`message.toLowerCase()`). -/
def toLowerList (l : List Char) : List Char := l.map jsLowerChar

/-- Boolean list-prefix test used by the substring scanner. -/
def isPrefixOfB : List Char → List Char → Bool
  | [], _ => true
  | _ :: _, [] => false
  | a :: as, b :: bs => a == b && isPrefixOfB as bs

/-- Substring containment, the behaviour of JS `String.prototype.includes`:
scan every start position for the pattern. -/
def containsSub (pat : List Char) : List Char → Bool
  | [] => pat.isEmpty
  | c :: rest => isPrefixOfB pat (c :: rest) || containsSub pat rest

/-- Containment of a string pattern in a character list. -/
def containsStr (pat : String) (l : List Char) : Bool := containsSub pat.data l

/-- The character class `[a-fA-F0-9]` of the address regex, written as the
explicit set of characters it denotes. -/
def hexChars : List Char :=
  ['0', '1', '2', '3', '4', '5', '6', '7', '8', '9',
   'A', 'B', 'C', 'D', 'E', 'F', 'a', 'b', 'c', 'd', 'e', 'f']

/-- Membership in the regex character class `[a-fA-F0-9]`. -/
def isHexDigitJS (c : Char) : Bool := decide (c ∈ hexChars)

/-- Attempt of the regex `/0x[a-fA-F0-9]{40}/` at one fixed position:
the literal `0x` followed by forty hex digits. -/
def matchAddrAt (l : List Char) : Option (List Char) :=
  match l with
  | c :: d :: rest =>
      if c = '0' then
        if d = 'x' then
          if 40 ≤ rest.length then
            if (rest.take 40).all isHexDigitJS then some (c :: d :: rest.take 40) else none
          else none
        else none
      else none
  | [] => none
  | [_] => none

/-- Leftmost match of the address regex, the behaviour of
`lowerMessage.match(/0x[a-fA-F0-9]{40}/)`. -/
def findAddr : List Char → Option (List Char)
  | [] => none
  | c :: rest =>
    match matchAddrAt (c :: rest) with
    | some a => some a
    | none => findAddr rest

/-! ## Process Supervisor (class TatumMCPServer)

The mutable fields of the class are the state record; `maxRetries` is the
constant 3 from the constructor.  `scheduledStarts` counts restart timers
created with `setTimeout(() => this.start(), 5000)` that have not fired
yet, and `startInvocations` counts actual entries into `start()`. -/

/-- Retry ceiling, `this.maxRetries = 3` in the constructor. -/
def maxRetries : Nat := 3

/-- Supervisor state: the mutable fields of TatumMCPServer relevant to the
lifecycle (the health-check interval handle is abstracted to a flag, and
the pending restart timers to a counter). -/
structure SupState where
  isConnected : Bool
  fallbackMode : Bool
  retryCount : Nat
  lastError : Option String
  requestId : Nat
  scheduledStarts : Nat
  startInvocations : Nat
  healthCheckOn : Bool
deriving DecidableEq

/-- Constructor state of TatumMCPServer. -/
def initState : SupState :=
  { isConnected := false, fallbackMode := false, retryCount := 0, lastError := none,
    requestId := 0, scheduledStarts := 0, startInvocations := 0, healthCheckOn := false }

/-- enableFallbackMode(reason): sets fallbackMode, clears isConnected and
records the reason in lastError. -/
def enableFallbackMode (reason : String) (s : SupState) : SupState :=
  { s with fallbackMode := true, isConnected := false, lastError := some reason }

/-- handleConnectionLoss(): below the retry ceiling it increments
retryCount and schedules start() after the backoff; at the ceiling it
enables fallback mode with reason "Max retries reached". -/
def handleConnectionLoss (s : SupState) : SupState :=
  if s.retryCount < maxRetries then
    { s with retryCount := s.retryCount + 1, scheduledStarts := s.scheduledStarts + 1 }
  else
    enableFallbackMode "Max retries reached" s

/-- First registered close handler: clears isConnected and delegates to
handleConnectionLoss. -/
def closeHandlerFirst (s : SupState) : SupState :=
  handleConnectionLoss { s with isConnected := false }

/-- Second registered close handler: clears isConnected, stops the health
check, and below the retry ceiling schedules start() and increments
retryCount. -/
def closeHandlerSecond (s : SupState) : SupState :=
  if s.retryCount < maxRetries then
    { s with isConnected := false, healthCheckOn := false,
             scheduledStarts := s.scheduledStarts + 1, retryCount := s.retryCount + 1 }
  else { s with isConnected := false, healthCheckOn := false }

/-- One unplanned subprocess exit: start() registers two close handlers on
the process, and a single close event runs both in registration order. -/
def onClose (s : SupState) : SupState := closeHandlerSecond (closeHandlerFirst s)

/-- Readiness marker observed on stdout or stderr: the registered data
handlers set isConnected, clear fallbackMode, reset retryCount and start
the health check. -/
def onReady (s : SupState) : SupState :=
  { s with isConnected := true, fallbackMode := false, retryCount := 0, healthCheckOn := true }

/-- Subprocess error event: the first handler enables fallback mode with a
"Process error" reason, the second clears isConnected and stops the
health check. -/
def onProcError (msg : String) (s : SupState) : SupState :=
  { enableFallbackMode ("Process error: " ++ msg) s with
      isConnected := false, healthCheckOn := false }

/-- The 10-second connect timer: if the readiness marker was not seen,
enables fallback mode with reason "Connection timeout". -/
def onConnectTimeout (s : SupState) : SupState :=
  if s.isConnected then s else enableFallbackMode "Connection timeout" s

/-- Synchronous state effect of entering start(): the spawn and handler
registration leave the counters untouched; only the invocation count
grows. -/
def invokeStart (s : SupState) : SupState :=
  { s with startInvocations := s.startInvocations + 1 }

/-- restart(): stops the health check, kills the process, clears
isConnected, resets retryCount to 0 and calls start() again. -/
def restart (s : SupState) : SupState :=
  invokeStart { s with healthCheckOn := false, isConnected := false, retryCount := 0 }

/-- A pending 5-second restart timer fires and calls start(). -/
def runScheduledStart (s : SupState) : SupState :=
  if s.scheduledStarts > 0 then
    invokeStart { s with scheduledStarts := s.scheduledStarts - 1 }
  else s

/-- A 30-second health-check tick: when the process handle is flagged
killed, clears isConnected and calls start(). -/
def healthTickStep (procKilled : Bool) (s : SupState) : SupState :=
  if s.healthCheckOn && procKilled then invokeStart { s with isConnected := false } else s

/-- callMcpTool: when connected it assigns the next correlation id with
`++this.requestId`; when not connected it throws before any I/O. -/
def callToolStep (s : SupState) : SupState :=
  if s.isConnected then { s with requestId := s.requestId + 1 } else s

/-- Events the supervisor's event loop can deliver. -/
inductive Ev where
  | close
  | ready
  | procError (msg : String)
  | connTimeout
  | fallback (reason : String)
  | restartEv
  | runSched
  | healthTick (procKilled : Bool)
  | callTool

/-- Transition function of the supervisor. -/
def stepEv : Ev → SupState → SupState
  | Ev.close, s => onClose s
  | Ev.ready, s => onReady s
  | Ev.procError msg, s => onProcError msg s
  | Ev.connTimeout, s => onConnectTimeout s
  | Ev.fallback reason, s => enableFallbackMode reason s
  | Ev.restartEv, s => restart s
  | Ev.runSched, s => runScheduledStart s
  | Ev.healthTick k, s => healthTickStep k s
  | Ev.callTool, s => callToolStep s

/-- States reachable from the constructor state by any event sequence. -/
inductive Reachable : SupState → Prop where
  | init : Reachable initState
  | step : ∀ (s : SupState) (e : Ev), Reachable s → Reachable (stepEv e s)

/-- Snapshot returned by getStatus() (the process-handle fields are
omitted; they mirror data outside this state record). -/
structure Status where
  isConnected : Bool
  fallbackMode : Bool
  lastError : Option String
  retryCount : Nat
  maxRetriesField : Nat
deriving DecidableEq

/-- getStatus(). -/
def getStatus (s : SupState) : Status :=
  { isConnected := s.isConnected, fallbackMode := s.fallbackMode, lastError := s.lastError,
    retryCount := s.retryCount, maxRetriesField := maxRetries }

/-- Correlation ids assigned by one event (callMcpTool assigns
`this.requestId + 1` exactly when connected). -/
def assignedAt (s : SupState) : Ev → List Nat
  | Ev.callTool => if s.isConnected then [s.requestId + 1] else []
  | _ => []

/-- Correlation ids assigned, in order, along an event sequence. -/
def assignedIds : List Ev → SupState → List Nat
  | [], _ => []
  | e :: evs, s => assignedAt s e ++ assignedIds evs (stepEv e s)

/-! ## Intent classifier (getBlockchainContext) -/

/-- The `type` strings produced by getBlockchainContext. -/
inductive CtxType where
  | wallet
  | portfolio
  | nft
  | chain
  | gas
  | chain_info
  | general
deriving DecidableEq

/-- The context object returned by getBlockchainContext; fields that a
branch of the source leaves undefined are `none` resp. `false`. -/
structure BlockchainContext where
  needsData : Bool
  chain : Option String
  type : CtxType
  address : Option String
  multiChain : Bool
deriving DecidableEq

/-- The multi-chain keyword test at the top of getBlockchainContext. -/
def isMultiChainMsg (lower : List Char) : Bool :=
  containsStr "all chain" lower || containsStr "multi-chain" lower ||
  containsStr "multi chain" lower || containsStr "across all" lower ||
  containsStr "every chain" lower || containsStr "all networks" lower ||
  containsStr "multi" lower || containsStr "all chains" lower

/-- The address-bearing branch of getBlockchainContext: with the matched
address in hand, sub-classify by the keyword groups in source order. -/
def addrContext (lower : List Char) (addrL : List Char) : BlockchainContext :=
  let address := String.mk addrL
  let isMultiChain := isMultiChainMsg lower
  if containsStr "portfolio" lower || containsStr "portofolio" lower ||
     containsStr "analyze portfolio" lower || containsStr "portfolio analysis" lower then
    { needsData := true, chain := some "ethereum", type := CtxType.portfolio,
      address := some address, multiChain := isMultiChain || containsStr "portfolio" lower }
  else if containsStr "nft" lower || containsStr "nft analysis" lower ||
          containsStr "nft gallery" lower || containsStr "nft collection" lower ||
          containsStr "collection" lower then
    { needsData := true, chain := some "ethereum", type := CtxType.nft,
      address := some address, multiChain := isMultiChain || containsStr "nft" lower }
  else if containsStr "wallet" lower || containsStr "balance" lower ||
          containsStr "analysis" lower || containsStr "check" lower ||
          containsStr "analyze" lower || containsStr "wallet analysis" lower then
    { needsData := true, chain := some "ethereum", type := CtxType.wallet,
      address := some address, multiChain := isMultiChain || containsStr "wallet" lower }
  else
    { needsData := true, chain := some "ethereum", type := CtxType.wallet,
      address := some address, multiChain := isMultiChain }

/-- The address-free branch cascade of getBlockchainContext, in source
order: chain names, gas keywords, chain-listing keywords, then nft,
wallet and portfolio keywords, else general. -/
def noAddrContext (lower : List Char) : BlockchainContext :=
  let isMultiChain := isMultiChainMsg lower
  if containsStr "ethereum" lower || containsStr "eth" lower then
      { needsData := true, chain := some "ethereum", type := CtxType.chain,
        address := none, multiChain := false }
    else if containsStr "polygon" lower || containsStr "matic" lower then
      { needsData := true, chain := some "polygon", type := CtxType.chain,
        address := none, multiChain := false }
    else if containsStr "bsc" lower || containsStr "bnb" lower then
      { needsData := true, chain := some "bsc", type := CtxType.chain,
        address := none, multiChain := false }
    else if containsStr "arbitrum" lower || containsStr "arb" lower then
      { needsData := true, chain := some "arbitrum", type := CtxType.chain,
        address := none, multiChain := false }
    else if containsStr "base" lower then
      { needsData := true, chain := some "base", type := CtxType.chain,
        address := none, multiChain := false }
    else if containsStr "optimism" lower || containsStr "op" lower then
      { needsData := true, chain := some "optimism", type := CtxType.chain,
        address := none, multiChain := false }
    else if containsStr "gas" lower || containsStr "fee" lower ||
            containsStr "gas price" lower || containsStr "gas cost" lower then
      { needsData := true, chain := some "ethereum", type := CtxType.gas,
        address := none, multiChain := false }
    else if containsStr "chains" lower || containsStr "chain info" lower ||
            containsStr "supported chains" lower || containsStr "blockchain info" lower ||
            containsStr "chain" lower then
      { needsData := false, chain := some "ethereum", type := CtxType.chain_info,
        address := none, multiChain := false }
    else if containsStr "nft" lower || containsStr "token" lower ||
            containsStr "collection" lower || containsStr "total nft value" lower then
      { needsData := true, chain := some "ethereum", type := CtxType.nft,
        address := none, multiChain := isMultiChain }
    else if containsStr "wallet" lower || containsStr "balance" lower ||
            containsStr "hold" lower || containsStr "checker" lower then
      { needsData := true, chain := some "ethereum", type := CtxType.wallet,
        address := none, multiChain := isMultiChain }
    else if containsStr "portfolio" lower || containsStr "portofolio" lower then
      { needsData := true, chain := some "ethereum", type := CtxType.portfolio,
        address := none, multiChain := isMultiChain }
    else
      { needsData := false, chain := none, type := CtxType.general,
        address := none, multiChain := false }

/-- getBlockchainContext over the character list of the message: the
source lowercases the message, extracts the first regex address match if
any, and then walks the keyword branches in order. -/
def getBlockchainContextL (msg : List Char) : BlockchainContext :=
  match findAddr (toLowerList msg) with
  | some addrL => addrContext (toLowerList msg) addrL
  | none => noAddrContext (toLowerList msg)

/-- getBlockchainContext on a message string. -/
def getBlockchainContext (message : String) : BlockchainContext :=
  getBlockchainContextL message.data

/-! ## Tool-Process Client listener lifecycle (callMcpTool promise body) -/

/-- Listener state of the subprocess stdout stream: the correlation ids of
the registered per-call `onData` listeners, in registration order. -/
structure ClientState where
  listeners : List Nat
deriving DecidableEq

/-- Registration performed by callMcpTool before writing the request:
`this.mcpProcess.stdout.on('data', onData)`. -/
def registerCall (cs : ClientState) (id : Nat) : ClientState :=
  { listeners := cs.listeners ++ [id] }

/-- The 15-second timeout handler: it rejects the promise with the error
"MCP request timeout"; the source removes no listener here, so the
listener state is returned unchanged. -/
def onTimeoutHandler (cs : ClientState) : ClientState × Except String Unit :=
  (cs, Except.error "MCP request timeout")

/-- The onData listener receiving a parseable response whose id matches:
it clears the timeout, removes itself from the stdout stream, and settles
the promise according to the error field. -/
def onMatchingResponse (cs : ClientState) (myId : Nat) (isErr : Bool) :
    ClientState × Except String Unit :=
  ({ listeners := cs.listeners.erase myId },
   if isErr then Except.error "ToolError" else Except.ok ())

/-! ## Gas price paths -/

/-- JS `Math.round`: round half toward positive infinity. -/
def jsRound (q : ℚ) : ℤ := Int.floor (q + 1 / 2)

/-- The gasPrice object of the `/api/gas/:chain` route. -/
structure GasPriceTiers where
  slow : ℤ
  standard : ℤ
  fast : ℤ
  baseFee : ℤ
deriving DecidableEq

/-- Tier computation of the `/api/gas/:chain` route from the raw gas price
`g` in Gwei: 0.8, 1, 1.2 and 0.9 multiples, each passed to Math.round. -/
def gasRouteTiers (g : ℚ) : GasPriceTiers :=
  { slow := jsRound (g * (8 / 10)), standard := jsRound g,
    fast := jsRound (g * (12 / 10)), baseFee := jsRound (g * (9 / 10)) }

/-- Fields of the upstream `/v3/blockchain/gas/` response used by
getGasDataFallback; a `none` field is rendered as "N/A". -/
structure GasApiData where
  slow : Option String
  standard : Option String
  fast : Option String
deriving DecidableEq

/-- getGasDataFallback: interpolates the upstream slow/standard/fast
fields directly into the reply text, with no tier arithmetic and no base
fee. -/
def getGasDataFallback (chain : String) (d : GasApiData) : String :=
  "🔄 **Fallback Analysis - Gas Prices**\n\n**Chain:** " ++ chain ++
  "\n**Slow:** " ++ d.slow.getD "N/A" ++ " Gwei\n**Standard:** " ++
  d.standard.getD "N/A" ++ " Gwei\n**Fast:** " ++ d.fast.getD "N/A" ++
  " Gwei\n\n*This response was generated using fallback mode due to MCP server issues.*"

/-! ## Multi-chain wallet fallback (getMultiChainWalletFallback) -/

/-- Payload of the v3 native-balance endpoint: a balance string and an
optional usdValue field (read as `data.usdValue || 0`). -/
structure NativeBalanceData where
  balance : String
  usdValue : Option ℚ
deriving DecidableEq

/-- One entry of the v4 token-balance result array. -/
structure TokenData where
  balance : String
deriving DecidableEq

/-- Outcome of the two HTTP requests issued for one chain; `none` means
the request failed and its attached catch handler substituted the default
data (`{ balance: '0', usdValue: 0 }` resp. the empty array). -/
structure ChainFetchResult where
  native : Option NativeBalanceData
  tokens : Option (List TokenData)
deriving DecidableEq

/-- Per-chain record built inside the fan-out. -/
structure ChainWalletData where
  nativeBalance : String
  nativeValue : ℚ
  tokens : List TokenData
  tokenValue : ℚ
  totalValue : ℚ
deriving DecidableEq

/-- Body of the per-chain async closure of getMultiChainWalletFallback.
Both HTTP errors are absorbed by the inner catch handlers, so this body
cannot throw and the outer catch that increments apiErrors is never
reached for a failed call. -/
def processChain (r : ChainFetchResult) : ChainWalletData :=
  let nativeData := r.native.getD { balance := "0", usdValue := some 0 }
  let nativeValue := nativeData.usdValue.getD 0
  let tokens := r.tokens.getD []
  let tokenValue : ℚ := 0
  { nativeBalance := nativeData.balance, nativeValue := nativeValue,
    tokens := tokens, tokenValue := tokenValue, totalValue := nativeValue + tokenValue }

/-- The reachable outcome of the per-chain catch handler: with the inner
catch handlers in place the try body performs no throwing operation, so
the flag is constantly false and apiErrors never counts an HTTP failure. -/
def chainErrored (_ : ChainFetchResult) : Bool := false

/-- The six-chain fan-out list. -/
def mcpChains : List String :=
  ["ethereum", "polygon", "bsc", "arbitrum", "base", "optimism"]

/-- getMockWalletResponse: the fixed reply used when the API key is not
configured. -/
def getMockWalletResponse (address : String) : String :=
  "💰 **Multi-Chain Wallet Analysis (Mock Data)**\n\n**Address:** `" ++ address ++
  "`\n**Total Portfolio Value:** $0.00\n**Active Chains:** 0/6\n**Total Tokens:** 0\n\n" ++
  "**Chain Breakdown:**\n• No active chains found\n\n⚠️ **API Key Not Configured:**\n" ++
  "• Please set TATUM_API_KEY in your .env file\n• Get a free API key from: https://tatum.io/\n" ++
  "• Example: TATUM_API_KEY=your_api_key_here\n\n" ++
  "*This is mock data. Configure your API key for real blockchain data.*"

/-- Aggregate header of the multi-chain wallet reply: the summary lines
the response text opens with, and the conditional API-errors note. -/
structure MultiChainSummary where
  totalPortfolioValue : ℚ
  activeChains : Nat
  totalTokens : Nat
  apiErrors : Nat
  apiErrorsNote : Option String
deriving DecidableEq

/-- Result of getMultiChainWalletFallback: either the mock reply or the
aggregate summary. -/
inductive WalletFallbackResult where
  | mock (text : String)
  | summary (s : MultiChainSummary)
deriving DecidableEq

/-- getMultiChainWalletFallback, parameterised by the environment API key
and the per-chain HTTP outcomes; the second component counts the External
Data Source requests issued (two per chain in the fan-out, none on the
mock path). -/
def getMultiChainWalletFallback (apiKey : Option String)
    (fetch : String → ChainFetchResult) (address : String) :
    WalletFallbackResult × Nat :=
  if (apiKey.getD "").isEmpty || apiKey.getD "" == "your_tatum_api_key_here" then
    (WalletFallbackResult.mock (getMockWalletResponse address), 0)
  else
    let results := mcpChains.map (fun c => processChain (fetch c))
    let totalPortfolioValue := (results.map (·.totalValue)).foldl (· + ·) 0
    let totalTokens := (results.map (·.tokens.length)).foldl (· + ·) 0
    let activeChains :=
      (results.filter (fun r => decide (0 < r.totalValue) || decide (0 < r.tokens.length))).length
    let apiErrors := (mcpChains.filter (fun c => chainErrored (fetch c))).length
    (WalletFallbackResult.summary
      { totalPortfolioValue := totalPortfolioValue, activeChains := activeChains,
        totalTokens := totalTokens, apiErrors := apiErrors,
        apiErrorsNote :=
          if 0 < apiErrors then
            some ("**API Errors:** " ++ toString apiErrors ++ "/6 chains")
          else none },
     2 * mcpChains.length)

/-! ## Multi-chain portfolio risk analysis (getMultiChainPortfolioFallback) -/

/-- Per-chain data entering the portfolio aggregation: the native USD
value and the usd values of the token holdings (`token.usdValue || 0`). -/
structure PChainData where
  nativeValue : ℚ
  tokenValues : List ℚ
deriving DecidableEq

/-- chainTotal = nativeValue + tokenValue, with tokenValue the reduce-sum
of the token usd values. -/
def chainTotal (c : PChainData) : ℚ :=
  c.nativeValue + c.tokenValues.foldl (· + ·) 0

/-- JS `Math.max(...)` over a nonempty argument list. -/
def listMax : List ℚ → ℚ
  | [] => 0
  | x :: xs => xs.foldl max x

/-- Accumulated portfolio total value over the chains. -/
def totalValueOf (chains : List PChainData) : ℚ :=
  (chains.map chainTotal).foldl (· + ·) 0

/-- Count of chains with a positive chain total (`if (chainTotal > 0)
portfolioData.activeChains++`). -/
def activeCount (chains : List PChainData) : Nat :=
  (chains.filter (fun c => decide (0 < chainTotal c))).length

/-- Accumulated token count over the chains. -/
def totalTokensOf (chains : List PChainData) : Nat :=
  (chains.map (·.tokenValues.length)).foldl (· + ·) 0

/-- The riskAnalysis record of getMultiChainPortfolioFallback. -/
structure RiskAnalysis where
  diversification : ℚ
  concentration : ℚ
  stability : ℚ
deriving DecidableEq

/-- Risk analysis computation: concentration from the largest chain value
over the total, diversification from the active-chain ratio, stability
from the token count capped at 100. -/
def computeRisk (chains : List PChainData) : RiskAnalysis :=
  let maxChainValue := listMax (chains.map chainTotal)
  { concentration :=
      if 0 < totalValueOf chains then maxChainValue / totalValueOf chains * 100 else 0,
    diversification := (activeCount chains : ℚ) / (chains.length : ℚ) * 100,
    stability :=
      if 0 < totalTokensOf chains then
        min 100 ((totalTokensOf chains : ℚ) / 10 * 100)
      else 0 }

/-- Exactly one chain carries positive value and every other chain total
is zero. -/
def exactlyOneActive (chains : List PChainData) : Prop :=
  ∃ pre c suf, chains = pre ++ c :: suf ∧ 0 < chainTotal c ∧
    (∀ d ∈ pre, chainTotal d = 0) ∧ ∀ d ∈ suf, chainTotal d = 0

/-- Witness inputs for the risk-analysis claim: one active chain holding
value 5 with two tokens, five inactive chains. -/
def chains6ex : List PChainData :=
  [⟨5, [1, 2]⟩, ⟨0, []⟩, ⟨0, []⟩, ⟨0, []⟩, ⟨0, []⟩, ⟨0, []⟩]

/-! ### Helper lemmas on the scanning primitives -/

theorem isPrefixOfB_append (pat t : List Char) : isPrefixOfB pat (pat ++ t) = true := by
  induction pat with
  | nil => rfl
  | cons a as ih => simp [isPrefixOfB, ih]

theorem isPrefixOfB_trans_append (a l m : List Char) (h : isPrefixOfB l m = true) :
    isPrefixOfB (a ++ l) (a ++ m) = true := by
  induction a with
  | nil => simpa
  | cons x a ih => simp [isPrefixOfB, ih]

theorem containsSub_nil_pat (l : List Char) : containsSub [] l = true := by
  cases l <;> simp [containsSub, isPrefixOfB]

theorem containsSub_of_prefixB (pat l : List Char) (h : isPrefixOfB pat l = true) :
    containsSub pat l = true := by
  cases l with
  | nil =>
    cases pat with
    | nil => rfl
    | cons a as => simp [isPrefixOfB] at h
  | cons c rest => simp [containsSub, h]

theorem containsSub_append_left (l₁ l₂ pat : List Char) (h : containsSub pat l₂ = true) :
    containsSub pat (l₁ ++ l₂) = true := by
  induction l₁ with
  | nil => simpa
  | cons x l₁ ih =>
    have hstep : containsSub pat ((x :: l₁) ++ l₂) =
        (isPrefixOfB pat (x :: (l₁ ++ l₂)) || containsSub pat (l₁ ++ l₂)) := rfl
    rw [hstep, ih, Bool.or_true]

theorem containsSub_of_append (p pat q : List Char) :
    containsSub pat (p ++ pat ++ q) = true := by
  rw [List.append_assoc]
  exact containsSub_append_left p (pat ++ q) pat
    (containsSub_of_prefixB pat (pat ++ q) (isPrefixOfB_append pat q))

theorem jsLowerChar_hex (c : Char) (h : isHexDigitJS c = true) :
    isHexDigitJS (jsLowerChar c) = true := by
  have hm : c ∈ hexChars := of_decide_eq_true h
  fin_cases hm <;> decide

theorem toLowerList_append (l₁ l₂ : List Char) :
    toLowerList (l₁ ++ l₂) = toLowerList l₁ ++ toLowerList l₂ := by
  simp [toLowerList]

theorem toLowerList_all_hex (t : List Char) (h : t.all isHexDigitJS = true) :
    (toLowerList t).all isHexDigitJS = true := by
  rw [toLowerList, List.all_map]
  rw [List.all_eq_true] at h ⊢
  intro c hc
  exact jsLowerChar_hex c (h c hc)

theorem matchAddrAt_of_shape (t rest : List Char) (hl : t.length = 40)
    (hh : t.all isHexDigitJS = true) :
    matchAddrAt ('0' :: 'x' :: (t ++ rest)) = some ('0' :: 'x' :: t) := by
  have htake : (t ++ rest).take 40 = t := by
    rw [← hl]
    exact List.take_left t rest
  have hlen2 : 40 ≤ (t ++ rest).length := by
    rw [List.length_append, hl]
    omega
  have hall : ((t ++ rest).take 40).all isHexDigitJS = true := by
    rw [htake]
    exact hh
  simp [matchAddrAt, htake, hlen2, hh]
  omega

theorem matchAddrAt_sound (l a : List Char) (h : matchAddrAt l = some a) :
    (∃ rest, l = a ++ rest) ∧
    ∃ t, a = '0' :: 'x' :: t ∧ t.length = 40 ∧ t.all isHexDigitJS = true := by
  match l with
  | [] => simp [matchAddrAt] at h
  | [c] => simp [matchAddrAt] at h
  | c :: d :: rest =>
    simp only [matchAddrAt] at h
    split_ifs at h with h1 h2 h3 h4
    subst h1
    subst h2
    injection h with h'
    subst h'
    refine ⟨⟨rest.drop 40, by simp⟩, rest.take 40, rfl, ?_, h4⟩
    rw [List.length_take]
    omega

theorem findAddr_isSome (p t q : List Char) (hl : t.length = 40)
    (hh : t.all isHexDigitJS = true) :
    (findAddr (p ++ ('0' :: 'x' :: (t ++ q)))).isSome = true := by
  induction p with
  | nil =>
    simp only [List.nil_append, findAddr]
    split
    · simp
    · next heq => rw [matchAddrAt_of_shape t q hl hh] at heq; cases heq
  | cons x p' ih =>
    simp only [List.cons_append, findAddr]
    split
    · simp
    · exact ih

theorem findAddr_sound (l a : List Char) (h : findAddr l = some a) :
    (∃ p q, l = p ++ a ++ q) ∧
    ∃ t, a = '0' :: 'x' :: t ∧ t.length = 40 ∧ t.all isHexDigitJS = true := by
  induction l with
  | nil => simp [findAddr] at h
  | cons c rest ih =>
    simp only [findAddr] at h
    split at h
    · next b heq =>
      injection h with h'
      subst h'
      obtain ⟨⟨r, hr⟩, ht⟩ := matchAddrAt_sound (c :: rest) b heq
      exact ⟨⟨[], r, by simp [hr]⟩, ht⟩
    · next heq =>
      obtain ⟨⟨p, q, hpq⟩, ht⟩ := ih h
      exact ⟨⟨c :: p, q, by simp [hpq]⟩, ht⟩

theorem addrContext_fields (lower a : List Char) :
    (addrContext lower a).address = some (String.mk a) ∧
    (addrContext lower a).type ≠ CtxType.general := by
  constructor
  · simp only [addrContext]
    split_ifs <;> rfl
  · simp only [addrContext]
    split_ifs <;> simp

theorem getBlockchainContextL_of_findAddr (msg a : List Char)
    (h : findAddr (toLowerList msg) = some a) :
    (getBlockchainContextL msg).address = some (String.mk a) ∧
    (getBlockchainContextL msg).type ≠ CtxType.general := by
  have hctx : getBlockchainContextL msg = addrContext (toLowerList msg) a := by
    unfold getBlockchainContextL
    rw [h]
  rw [hctx]
  exact addrContext_fields (toLowerList msg) a

/-! ### Helper lemmas on rational folds -/

theorem foldl_add_zeros (l : List ℚ) (a : ℚ) (h : ∀ x ∈ l, x = 0) :
    l.foldl (· + ·) a = a := by
  induction l generalizing a with
  | nil => rfl
  | cons x xs ih =>
    have hx := h x (by simp)
    simp only [List.foldl_cons, hx, add_zero]
    exact ih a (fun y hy => h y (by simp [hy]))

theorem foldl_max_zeros (l : List ℚ) (a : ℚ) (ha : 0 ≤ a) (h : ∀ x ∈ l, x = 0) :
    l.foldl max a = a := by
  induction l generalizing a with
  | nil => rfl
  | cons x xs ih =>
    have hx := h x (by simp)
    simp only [List.foldl_cons, hx]
    rw [max_eq_left ha]
    exact ih a ha (fun y hy => h y (by simp [hy]))

theorem foldl_max_zeros_then (l₁ l₂ : List ℚ) (v : ℚ) (hv : 0 < v)
    (h1 : ∀ x ∈ l₁, x = 0) (h2 : ∀ x ∈ l₂, x = 0) :
    (l₁ ++ v :: l₂).foldl max 0 = v := by
  induction l₁ with
  | nil =>
    simp only [List.nil_append, List.foldl_cons]
    rw [max_eq_right hv.le]
    exact foldl_max_zeros l₂ v hv.le h2
  | cons x l₁ ih =>
    have hx := h1 x (by simp)
    simp only [List.cons_append, List.foldl_cons, hx, max_self]
    exact ih (fun y hy => h1 y (by simp [hy]))

theorem foldl_add_one_active (l₁ l₂ : List ℚ) (v : ℚ)
    (h1 : ∀ x ∈ l₁, x = 0) (h2 : ∀ x ∈ l₂, x = 0) :
    (l₁ ++ v :: l₂).foldl (· + ·) 0 = v := by
  rw [List.foldl_append, foldl_add_zeros l₁ 0 h1]
  simp only [List.foldl_cons, zero_add]
  exact foldl_add_zeros l₂ v h2

theorem listMax_one_active (l₁ l₂ : List ℚ) (v : ℚ) (hv : 0 < v)
    (h1 : ∀ x ∈ l₁, x = 0) (h2 : ∀ x ∈ l₂, x = 0) :
    listMax (l₁ ++ v :: l₂) = v := by
  cases l₁ with
  | nil =>
    simp only [List.nil_append, listMax]
    exact foldl_max_zeros l₂ v hv.le h2
  | cons x l₁ =>
    have hx := h1 x (by simp)
    simp only [List.cons_append, listMax, hx]
    exact foldl_max_zeros_then l₁ l₂ v hv (fun y hy => h1 y (by simp [hy])) h2

/-! ### Theorems for the supervisor claims -/

theorem retryCount_le_step (e : Ev) (s : SupState) (h : s.retryCount ≤ maxRetries) :
    (stepEv e s).retryCount ≤ maxRetries := by
  cases e <;>
    simp only [stepEv, onClose, closeHandlerFirst, closeHandlerSecond, handleConnectionLoss,
      enableFallbackMode, onReady, onProcError, onConnectTimeout, restart, invokeStart,
      runScheduledStart, healthTickStep, callToolStep, maxRetries] at h ⊢ <;>
    (try simp) <;> (try split_ifs) <;> (try simp_all) <;> omega

theorem retryCount_le_of_reachable (s : SupState) (h : Reachable s) :
    s.retryCount ≤ maxRetries := by
  induction h with
  | init => decide
  | step s e _ ih => exact retryCount_le_step e s ih

/-- Claim C1: in every reachable supervisor state the status snapshot shows
retryCount ≤ maxRetries; when the budget is exhausted a further unplanned
exit neither schedules nor invokes start(); and restart() resets the
budget to 0 and invokes start() again. -/
theorem C1_retry_budget (s : SupState) (h : Reachable s) :
    (getStatus s).retryCount ≤ (getStatus s).maxRetriesField ∧
    (s.retryCount = maxRetries →
      (stepEv Ev.close s).scheduledStarts = s.scheduledStarts ∧
      (stepEv Ev.close s).startInvocations = s.startInvocations) ∧
    (stepEv Ev.restartEv s).retryCount = 0 ∧
    (stepEv Ev.restartEv s).startInvocations = s.startInvocations + 1 := by
  refine ⟨retryCount_le_of_reachable s h, ?_, rfl, rfl⟩
  intro hmax
  simp [stepEv, onClose, closeHandlerFirst, closeHandlerSecond, handleConnectionLoss,
    enableFallbackMode, hmax]

theorem C1_retry_budget_witness :
    (getStatus (stepEv Ev.close (stepEv Ev.close initState))).retryCount ≤
      (getStatus (stepEv Ev.close (stepEv Ev.close initState))).maxRetriesField ∧
    ((stepEv Ev.close (stepEv Ev.close initState)).retryCount = maxRetries →
      (stepEv Ev.close (stepEv Ev.close (stepEv Ev.close initState))).scheduledStarts =
        (stepEv Ev.close (stepEv Ev.close initState)).scheduledStarts ∧
      (stepEv Ev.close (stepEv Ev.close (stepEv Ev.close initState))).startInvocations =
        (stepEv Ev.close (stepEv Ev.close initState)).startInvocations) ∧
    (stepEv Ev.restartEv (stepEv Ev.close (stepEv Ev.close initState))).retryCount = 0 ∧
    (stepEv Ev.restartEv (stepEv Ev.close (stepEv Ev.close initState))).startInvocations =
      (stepEv Ev.close (stepEv Ev.close initState)).startInvocations + 1 :=
  C1_retry_budget (stepEv Ev.close (stepEv Ev.close initState))
    (Reachable.step _ Ev.close (Reachable.step _ Ev.close Reachable.init))

/-- Claim C2: after a successful connection, three unplanned exits in a row
leave the supervisor in fallback mode with lastError "Max retries
reached", and a fourth exit schedules no further start() and invokes
none. -/
theorem C2_three_exits_fallback :
    (stepEv Ev.close (stepEv Ev.close (stepEv Ev.close (stepEv Ev.ready initState)))).fallbackMode
        = true ∧
    (stepEv Ev.close (stepEv Ev.close (stepEv Ev.close (stepEv Ev.ready initState)))).isConnected
        = false ∧
    (stepEv Ev.close (stepEv Ev.close (stepEv Ev.close (stepEv Ev.ready initState)))).lastError
        = some "Max retries reached" ∧
    (stepEv Ev.close (stepEv Ev.close (stepEv Ev.close (stepEv Ev.close
        (stepEv Ev.ready initState))))).scheduledStarts
      = (stepEv Ev.close (stepEv Ev.close (stepEv Ev.close
        (stepEv Ev.ready initState)))).scheduledStarts ∧
    (stepEv Ev.close (stepEv Ev.close (stepEv Ev.close (stepEv Ev.close
        (stepEv Ev.ready initState))))).startInvocations
      = (stepEv Ev.close (stepEv Ev.close (stepEv Ev.close
        (stepEv Ev.ready initState)))).startInvocations := by
  decide

theorem requestId_mono (e : Ev) (s : SupState) :
    s.requestId ≤ (stepEv e s).requestId := by
  cases e <;>
    simp only [stepEv, onClose, closeHandlerFirst, closeHandlerSecond, handleConnectionLoss,
      enableFallbackMode, onReady, onProcError, onConnectTimeout, restart, invokeStart,
      runScheduledStart, healthTickStep, callToolStep] <;>
    (try split_ifs) <;> simp

theorem mem_assignedAt (s : SupState) (e : Ev) (i : Nat) (hi : i ∈ assignedAt s e) :
    i = s.requestId + 1 ∧ (stepEv e s).requestId = s.requestId + 1 := by
  cases e
  case callTool =>
    by_cases hc : s.isConnected = true
    · simp only [assignedAt, if_pos hc, List.mem_singleton] at hi
      exact ⟨hi, by simp [stepEv, callToolStep, hc]⟩
    · simp [assignedAt, hc] at hi
  all_goals simp [assignedAt] at hi

theorem assignedIds_gt (evs : List Ev) :
    ∀ (s : SupState), ∀ i ∈ assignedIds evs s, s.requestId < i := by
  induction evs with
  | nil => intro s i hi; simp [assignedIds] at hi
  | cons e evs ih =>
    intro s i hi
    simp only [assignedIds, List.mem_append] at hi
    rcases hi with hi | hi
    · have h1 := (mem_assignedAt s e i hi).1
      omega
    · exact Nat.lt_of_le_of_lt (requestId_mono e s) (ih (stepEv e s) i hi)

/-- Claim C4: along any event sequence from the constructor state,
including sequences containing restart(), the correlation ids assigned to
tool calls are strictly increasing, so no id is ever reused. -/
theorem C4_correlation_ids_strictly_increasing (evs : List Ev) :
    (assignedIds evs initState).Pairwise (· < ·) := by
  suffices h : ∀ s : SupState, (assignedIds evs s).Pairwise (· < ·) from h initState
  induction evs with
  | nil => intro s; simp [assignedIds]
  | cons e evs ih =>
    intro s
    simp only [assignedIds]
    refine List.pairwise_append.mpr ⟨?_, ih (stepEv e s), ?_⟩
    · cases e <;> simp only [assignedAt] <;> try exact List.Pairwise.nil
      split <;> simp
    · intro a ha b hb
      have h1 := (mem_assignedAt s e a ha).1
      have h2 := (mem_assignedAt s e a ha).2
      have h3 := assignedIds_gt evs (stepEv e s) b hb
      omega

/-! ### Theorems for the classifier claims -/

/-- Claim C6 (amended): for every message containing a 0x-prefixed
40-hex-digit address, classify returns an Intent whose address field is
the leftmost address match of the lowercased message — the lowercasing of
an address occurrence, not necessarily the exact spelling from the
message — and whose kind is not general. -/
theorem C6_address_classification (m : String) (pre h40 suf : List Char)
    (hm : m.data = pre ++ ('0' :: 'x' :: h40) ++ suf)
    (hlen : h40.length = 40) (hhex : h40.all isHexDigitJS = true) :
    ∃ a : List Char,
      (getBlockchainContext m).address = some (String.mk a) ∧
      (∃ t, a = '0' :: 'x' :: t ∧ t.length = 40 ∧ t.all isHexDigitJS = true) ∧
      containsSub a (toLowerList m.data) = true ∧
      (getBlockchainContext m).type ≠ CtxType.general := by
  have h0 : jsLowerChar '0' = '0' := by decide
  have hx : jsLowerChar 'x' = 'x' := by decide
  have hiso : (findAddr (toLowerList m.data)).isSome = true := by
    rw [hm, toLowerList_append, toLowerList_append]
    have hcons : toLowerList ('0' :: 'x' :: h40) = '0' :: 'x' :: toLowerList h40 := by
      simp [toLowerList, h0, hx]
    rw [hcons]
    have hsh : toLowerList pre ++ ('0' :: 'x' :: toLowerList h40) ++ toLowerList suf
        = toLowerList pre ++ ('0' :: 'x' :: (toLowerList h40 ++ toLowerList suf)) := by
      simp
    rw [hsh]
    exact findAddr_isSome (toLowerList pre) (toLowerList h40) (toLowerList suf)
      (by rw [toLowerList, List.length_map]; exact hlen)
      (toLowerList_all_hex h40 hhex)
  obtain ⟨a, ha⟩ := Option.isSome_iff_exists.mp hiso
  obtain ⟨hctx1, hctx2⟩ := getBlockchainContextL_of_findAddr m.data a ha
  obtain ⟨⟨p, q, hpq⟩, ht⟩ := findAddr_sound (toLowerList m.data) a ha
  refine ⟨a, hctx1, ht, ?_, hctx2⟩
  rw [hpq]
  exact containsSub_of_append p a q

theorem C6_address_classification_witness :
    ∃ a : List Char,
      (getBlockchainContext "check 0x0123456789abcdef0123456789abcdefABCDEF01").address =
        some (String.mk a) ∧
      (∃ t, a = '0' :: 'x' :: t ∧ t.length = 40 ∧ t.all isHexDigitJS = true) ∧
      containsSub a
        (toLowerList "check 0x0123456789abcdef0123456789abcdefABCDEF01".data) = true ∧
      (getBlockchainContext "check 0x0123456789abcdef0123456789abcdefABCDEF01").type ≠
        CtxType.general :=
  C6_address_classification "check 0x0123456789abcdef0123456789abcdefABCDEF01"
    "check ".data "0123456789abcdef0123456789abcdefABCDEF01".data []
    (by decide) (by decide) (by decide)

/-- Claim C6 counterexample: the message consisting of the upper-case
address 0xABCDEF0123456789ABCDEF0123456789ABCDEF01 contains a valid
40-hex-digit address, yet classify does not return that exact string: the
source matches against the lowercased message, so the returned address is
the lowercased form. -/
theorem C6_counterexample :
    (getBlockchainContext "0xABCDEF0123456789ABCDEF0123456789ABCDEF01").address ≠
      some "0xABCDEF0123456789ABCDEF0123456789ABCDEF01" ∧
    (getBlockchainContext "0xABCDEF0123456789ABCDEF0123456789ABCDEF01").address =
      some "0xabcdef0123456789abcdef0123456789abcdef01" := by
  constructor
  · decide
  · decide

/-- Claim C7 (amended): the message "portfolio 0xABCDEF0123456789ABCDEF
0123456789ABCDEF01" classifies as a portfolio intent with multiChain set
by the "portfolio" keyword itself, but the address field holds the
lowercased address, not the original spelling. -/
theorem C7_portfolio_message :
    getBlockchainContext "portfolio 0xABCDEF0123456789ABCDEF0123456789ABCDEF01" =
      { needsData := true, chain := some "ethereum", type := CtxType.portfolio,
        address := some "0xabcdef0123456789abcdef0123456789abcdef01",
        multiChain := true } := by
  decide

/-- Claim C7 counterexample: the address field of the classified
portfolio message differs from the address string as it appeared. -/
theorem C7_counterexample :
    (getBlockchainContext "portfolio 0xABCDEF0123456789ABCDEF0123456789ABCDEF01").address ≠
      some "0xABCDEF0123456789ABCDEF0123456789ABCDEF01" := by
  decide

/-! ### Theorems for the client listener claim -/

/-- Claim C5 (amended): a call that times out fails with the
"MCP request timeout" error, but its onData listener is not deregistered
by the timeout handler — the listener list is unchanged — and only a
later matching response removes it; there is no separate pending-request
table to clean. -/
theorem C5_timeout_keeps_listener (cs : ClientState) (id : Nat) :
    (onTimeoutHandler (registerCall cs id)).2 = Except.error "MCP request timeout" ∧
    (onTimeoutHandler (registerCall cs id)).1.listeners = cs.listeners ++ [id] ∧
    (onMatchingResponse (registerCall cs id) id false).1.listeners =
      (cs.listeners ++ [id]).erase id :=
  ⟨rfl, rfl, rfl⟩

/-- Claim C5 counterexample: starting with no listeners, one call is
registered and then times out; the call fails with the timeout error but
the listener is still registered, contradicting the claimed
deregistration. -/
theorem C5_counterexample :
    (onTimeoutHandler (registerCall ⟨[]⟩ 1)).1.listeners = [1] ∧
    (onTimeoutHandler (registerCall ⟨[]⟩ 1)).2 = Except.error "MCP request timeout" ∧
    [1] ≠ ([] : List Nat) := by
  refine ⟨rfl, rfl, by decide⟩

/-! ### Theorems for the fallback responder claims -/

/-- Claim C3 evaluation at the failing input: with a configured key and
all six per-chain HTTP requests failing, the fan-out returns normally
(never throws) with zero active chains, but apiErrors is 0 and no
"API Errors" note is emitted — the inner catch handlers absorb every HTTP
failure before the outer catch that increments the counter — contrary to
the claimed "API Errors: 6/6" report. -/
theorem C3_api_errors_note_never_emitted :
    getMultiChainWalletFallback (some "valid-key")
        (fun _ => { native := none, tokens := none }) "0xabc" =
      (WalletFallbackResult.summary
        { totalPortfolioValue := 0, activeChains := 0, totalTokens := 0,
          apiErrors := 0, apiErrorsNote := none }, 12) := by
  simp [getMultiChainWalletFallback, mcpChains, chainErrored, processChain]
  decide

/-- Claim C9 (amended): the HTTP gas route computes the tiers
slow = round(0.8 g), standard = round(g), fast = round(1.2 g) and
baseFee = round(0.9 g) from the raw price g; the Fallback Responder's gas
path instead interpolates the upstream slow/standard/fast values
unchanged into its reply and reports no base fee. -/
theorem C9_gas_tiers (g : ℚ) (chain s t f : String) :
    (gasRouteTiers g).slow = jsRound (8 / 10 * g) ∧
    (gasRouteTiers g).standard = jsRound g ∧
    (gasRouteTiers g).fast = jsRound (12 / 10 * g) ∧
    (gasRouteTiers g).baseFee = jsRound (9 / 10 * g) ∧
    containsSub ("**Slow:** " ++ s ++ " Gwei").data
      (getGasDataFallback chain ⟨some s, some t, some f⟩).data = true := by
  refine ⟨by rw [gasRouteTiers]; rw [mul_comm g (8 / 10)], rfl,
    by rw [gasRouteTiers]; rw [mul_comm g (12 / 10)],
    by rw [gasRouteTiers]; rw [mul_comm g (9 / 10)], ?_⟩
  simp only [getGasDataFallback, Option.getD_some, String.data_append, List.append_assoc]
  apply containsSub_append_left
  apply containsSub_append_left
  rw [show (['\n', '*', '*', 'S', 'l', 'o', 'w', ':', '*', '*', ' '] : List Char)
      = ['\n'] ++ ['*', '*', 'S', 'l', 'o', 'w', ':', '*', '*', ' '] from rfl,
    List.append_assoc]
  apply containsSub_append_left
  apply containsSub_of_prefixB
  apply isPrefixOfB_trans_append
  apply isPrefixOfB_trans_append
  rw [show ([' ', 'G', 'w', 'e', 'i', '\n', '*', '*', 'S', 't', 'a', 'n', 'd', 'a', 'r', 'd',
        ':', '*', '*', ' '] : List Char)
      = [' ', 'G', 'w', 'e', 'i'] ++ ['\n', '*', '*', 'S', 't', 'a', 'n', 'd', 'a', 'r', 'd',
        ':', '*', '*', ' '] from rfl,
    List.append_assoc]
  exact isPrefixOfB_append [' ', 'G', 'w', 'e', 'i'] _

/-- Claim C9 counterexample: with the upstream gas endpoint reporting
slow 7 and standard 10, the fallback reply displays slow 7 verbatim,
while the claimed formula round(0.8 x 10) gives 8; the fallback path does
not compute tiers. -/
theorem C9_counterexample :
    containsSub "**Slow:** 7 Gwei".data
      (getGasDataFallback "ethereum" ⟨some "7", some "10", some "50"⟩).data = true ∧
    containsSub "**Slow:** 8 Gwei".data
      (getGasDataFallback "ethereum" ⟨some "7", some "10", some "50"⟩).data = false ∧
    (gasRouteTiers 10).slow = 8 := by
  refine ⟨by decide, by decide, ?_⟩
  norm_num [gasRouteTiers, jsRound]

/-- Claim C10: with the API key unset or equal to the placeholder
"your_tatum_api_key_here", the multi-chain wallet fallback returns the
fixed mock reply, independent of the per-chain outcomes, and issues no
External Data Source request; the mock text reports a $0.00 total, 0/6
active chains and 0 tokens. -/
theorem C10_mock_when_key_unconfigured (fetch : String → ChainFetchResult)
    (address : String) (apiKey : Option String)
    (h : apiKey = none ∨ apiKey = some "your_tatum_api_key_here") :
    getMultiChainWalletFallback apiKey fetch address =
      (WalletFallbackResult.mock (getMockWalletResponse address), 0) ∧
    containsSub "**Total Portfolio Value:** $0.00".data
      (getMockWalletResponse address).data = true ∧
    containsSub "**Active Chains:** 0/6".data (getMockWalletResponse address).data = true ∧
    containsSub "**Total Tokens:** 0".data (getMockWalletResponse address).data = true := by
  refine ⟨?_, ?_, ?_, ?_⟩
  · rcases h with rfl | rfl
    · rfl
    · simp [getMultiChainWalletFallback]
  · simp only [getMockWalletResponse, String.data_append, List.append_assoc]
    apply containsSub_append_left
    apply containsSub_append_left
    decide
  · simp only [getMockWalletResponse, String.data_append, List.append_assoc]
    apply containsSub_append_left
    apply containsSub_append_left
    decide
  · simp only [getMockWalletResponse, String.data_append, List.append_assoc]
    apply containsSub_append_left
    apply containsSub_append_left
    decide

theorem C10_mock_when_key_unconfigured_witness :
    getMultiChainWalletFallback none
        (fun _ => { native := none, tokens := none }) "0x1234" =
      (WalletFallbackResult.mock (getMockWalletResponse "0x1234"), 0) ∧
    containsSub "**Total Portfolio Value:** $0.00".data
      (getMockWalletResponse "0x1234").data = true ∧
    containsSub "**Active Chains:** 0/6".data (getMockWalletResponse "0x1234").data = true ∧
    containsSub "**Total Tokens:** 0".data (getMockWalletResponse "0x1234").data = true :=
  C10_mock_when_key_unconfigured (fun _ => { native := none, tokens := none })
    "0x1234" none (Or.inl rfl)

/-! ### Theorems for the risk-analysis claim -/

/-- Claim C8: concentration equals (largest chain value / total) x 100
and is exactly 100 when exactly one chain has positive value and the rest
are zero; diversification equals 100 x (activeChains / 6) exactly for the
integer active-chain count, which is at most 6; stability equals
min(100, (token count / 10) x 100). -/
theorem C8_risk_formulas (chains : List PChainData) (hlen : chains.length = 6) :
    (exactlyOneActive chains → (computeRisk chains).concentration = 100) ∧
    (0 < totalValueOf chains →
      (computeRisk chains).concentration =
        listMax (chains.map chainTotal) / totalValueOf chains * 100) ∧
    activeCount chains ≤ 6 ∧
    (computeRisk chains).diversification = 100 * ((activeCount chains : ℚ) / 6) ∧
    (computeRisk chains).stability = min 100 ((totalTokensOf chains : ℚ) / 10 * 100) := by
  refine ⟨?_, ?_, ?_, ?_, ?_⟩
  · rintro ⟨pre, c, suf, rfl, hc, hpre, hsuf⟩
    have hpre' : ∀ x ∈ pre.map chainTotal, x = 0 := by
      intro x hx
      obtain ⟨d, hd, rfl⟩ := List.mem_map.mp hx
      exact hpre d hd
    have hsuf' : ∀ x ∈ suf.map chainTotal, x = 0 := by
      intro x hx
      obtain ⟨d, hd, rfl⟩ := List.mem_map.mp hx
      exact hsuf d hd
    have hmap : (pre ++ c :: suf).map chainTotal
        = pre.map chainTotal ++ chainTotal c :: suf.map chainTotal := by simp
    have htv : totalValueOf (pre ++ c :: suf) = chainTotal c := by
      rw [totalValueOf, hmap]
      exact foldl_add_one_active (pre.map chainTotal) (suf.map chainTotal)
        (chainTotal c) hpre' hsuf'
    have hmax : listMax ((pre ++ c :: suf).map chainTotal) = chainTotal c := by
      rw [hmap]
      exact listMax_one_active (pre.map chainTotal) (suf.map chainTotal)
        (chainTotal c) hc hpre' hsuf'
    simp only [computeRisk]
    rw [htv, hmax, if_pos hc, div_self (ne_of_gt hc), one_mul]
  · intro htv
    simp only [computeRisk]
    rw [if_pos htv]
  · rw [activeCount, ← hlen]
    exact List.length_filter_le _ chains
  · simp only [computeRisk]
    rw [hlen]
    push_cast
    ring
  · simp only [computeRisk]
    by_cases htk : 0 < totalTokensOf chains
    · rw [if_pos htk]
    · rw [if_neg htk]
      have hz : totalTokensOf chains = 0 := by omega
      rw [hz]
      norm_num

theorem C8_risk_formulas_witness :
    (computeRisk chains6ex).concentration = 100 ∧
    (computeRisk chains6ex).diversification = 100 * ((activeCount chains6ex : ℚ) / 6) ∧
    (computeRisk chains6ex).stability =
      min 100 ((totalTokensOf chains6ex : ℚ) / 10 * 100) := by
  have h := C8_risk_formulas chains6ex (by decide)
  refine ⟨h.1 ?_, h.2.2.2.1, h.2.2.2.2⟩
  exact ⟨[], ⟨5, [1, 2]⟩, [⟨0, []⟩, ⟨0, []⟩, ⟨0, []⟩, ⟨0, []⟩, ⟨0, []⟩], rfl,
    by norm_num [chainTotal, List.foldl], by simp,
    by intro d hd; fin_cases hd <;> norm_num [chainTotal, List.foldl]⟩
